import Mathlib

/-!
# html-webpack-plugin, `lib/compiler.js`

A shallow embedding of `compileTemplate` and `getCompilerName`.

`compileTemplate` has a synchronous part (lines 35-52: the output options, the
snapshot `cachedAsset`, the child compiler and its plugins) and a completion
callback handed to `childCompiler.runAsChild` (lines 56-75).  Both are embedded
as functions; what the host engine does in between (the value it leaves in the
parent asset table, the three arguments it passes to the callback) is an input.

Conventions of the embedding:

* an asset table maps file names to asset objects; it is a plain object (`{}`),
  given by the list of its own properties in insertion order, and it inherits
  the properties of `Object.prototype`: a read `assets[k]` of a key that is not
  an own property yields the inherited value under the names `constructor`,
  `toString` and the like, and `undefined` under every other name.  A property
  can hold the value `undefined` (line 57 stores it for a moment), which is not
  the same state as the property being absent;
* a table is filled by assignments `assets[name] = value`, and an assignment
  to the name `__proto__` goes to the accessor of `Object.prototype` instead of
  creating a property, so no table has an own property of that name;
* an expression that throws (a property read on `undefined`) ends the function
  at that point: effects made before it stay, later ones do not happen;
* the completion callback runs on a later turn than the promise executor, so
  the promise is settled by the calls of `resolve` and `reject` that the
  callback makes and by nothing else; the first call settles it.
-/

namespace HtmlWebpackPlugin

/-! ## Values and the asset table -/

/-- An asset object: `source()` returns its text. -/
structure Asset where
  source : String
  deriving DecidableEq, Repr

/-- What a property of an asset table holds, or what reading one yields:
`undefined`, an asset object, or the value a plain object inherits from
`Object.prototype` under `name` (a built-in function such as `Object` for
`constructor`, the prototype itself for `__proto__`): that value is not
`undefined` and has no `source` method. -/
inductive Value where
  | undefined
  | asset (a : Asset)
  | inherited (name : String)
  deriving DecidableEq, Repr

/-- The property names of `Object.prototype`, which every plain object
inherits. -/
def objectPrototypeNames : List String :=
  ["constructor", "__defineGetter__", "__defineSetter__", "hasOwnProperty",
   "__lookupGetter__", "__lookupSetter__", "isPrototypeOf", "propertyIsEnumerable",
   "toString", "valueOf", "__proto__", "toLocaleString"]

/-- The own properties of `compilation.assets`, in insertion order. -/
abbrev AssetTable := List (String × Value)

namespace AssetTable

/-- The first pair of the list stored under `k`. -/
def lookup : AssetTable → String → Option Value
  | [], _ => none
  | (k', v) :: t, k => if k' = k then some v else lookup t k

/-- The own property `k` of the table: `none` when the key is absent.  No table
has an own property `__proto__`. -/
def own (t : AssetTable) (k : String) : Option Value :=
  if k = "__proto__" then none else lookup t k

/-- The JavaScript read `assets[k]`: the own property when there is one,
otherwise the value inherited from `Object.prototype` when `k` is one of its
property names, otherwise `undefined`. -/
def get (t : AssetTable) (k : String) : Value :=
  match own t k with
  | some v => v
  | none => if k ∈ objectPrototypeNames then Value.inherited k else Value.undefined

/-- A pair stored under `k`: an existing one keeps its place, a new one goes
last. -/
def store : AssetTable → String → Value → AssetTable
  | [], k, v => [(k, v)]
  | (k', v') :: t, k, v => if k' = k then (k, v) :: t else (k', v') :: store t k v

/-- The JavaScript write `assets[k] = v`: an own property is updated or
created, inherited data properties being writable; a write to `__proto__` is
taken by the accessor of `Object.prototype` and creates no property. -/
def set (t : AssetTable) (k : String) (v : Value) : AssetTable :=
  if k = "__proto__" then t else store t k v

/-- The JavaScript `delete assets[k]`. -/
def delete : AssetTable → String → AssetTable
  | [], _ => []
  | (k', v) :: t, k => if k' = k then delete t k else (k', v) :: delete t k

end AssetTable

/-! ## The `path` module and `getCompilerName` -/

/-- The two functions of Node's `path` module that `getCompilerName` calls.
They belong to the platform, not to this repository, so they are a parameter. -/
structure PathModule where
  resolve : String → String → String
  relative : String → String → String

/-- The `length` of a JavaScript string: its number of UTF-16 code units. -/
def jsLength (s : String) : Nat :=
  (s.data.map (fun c => if c.toNat < 65536 then 1 else 2)).sum

/-- `getCompilerName` (lines 83-87). -/
def getCompilerName (path : PathModule) (context filename : String) : String :=
  let absolutePath := path.resolve context filename
  let relativePath := path.relative context absolutePath
  "html-webpack-plugin for \"" ++
    (if jsLength absolutePath < jsLength relativePath then absolutePath else relativePath) ++
    "\""

/-! ### A POSIX instance of the `path` module -/

namespace Posix

/-- The segments of a path: the pieces between `/` characters. -/
def splitSegs : List Char → List (List Char)
  | [] => [[]]
  | c :: cs =>
    if c = '/' then [] :: splitSegs cs
    else
      match splitSegs cs with
      | [] => [[c]]
      | s :: ss => (c :: s) :: ss

/-- One step of path normalisation on a reversed stack of segments: empty
segments and `.` are dropped, `..` removes the last segment (and is dropped at
the root). -/
def pushSeg (stack : List (List Char)) (seg : List Char) : List (List Char) :=
  if seg = [] ∨ seg = ['.'] then stack
  else if seg = ['.', '.'] then stack.tail
  else seg :: stack

/-- The normalised segments of an absolute path. -/
def normSegs (p : List Char) : List (List Char) :=
  ((splitSegs p).foldl pushSeg []).reverse

/-- Segments joined by `/`. -/
def joinSegs : List (List Char) → List Char
  | [] => []
  | [s] => s
  | s :: ss => s ++ '/' :: joinSegs ss

/-- A path is absolute when it starts with `/`. -/
def isAbsolute (p : List Char) : Bool :=
  p.head? = some '/'

/-- The unnormalised path that `path.resolve(context, filename)` builds,
reading its arguments from the right until one is absolute and falling back on
the working directory `cwd` (itself absolute); empty arguments are skipped. -/
def rawResolve (cwd context filename : List Char) : List Char :=
  let p1 := filename
  if isAbsolute p1 then p1
  else
    let p2 := if context = [] then p1 else context ++ '/' :: p1
    if isAbsolute p2 then p2 else cwd ++ '/' :: p2

/-- The segments of `path.resolve(context, filename)`. -/
def resolveSegs (cwd context filename : List Char) : List (List Char) :=
  normSegs (rawResolve cwd context filename)

/-- The common prefix of two segment lists removed from both. -/
def dropCommon : List (List Char) → List (List Char) → List (List Char) × List (List Char)
  | a :: as, b :: bs => if a = b then dropCommon as bs else (a :: as, b :: bs)
  | as, bs => (as, bs)

/-- Modelled from the documentation of Node's `path.resolve` on POSIX:
an absolute, normalised path. -/
def resolve (cwd context filename : String) : String :=
  String.mk ('/' :: joinSegs (resolveSegs cwd.data context.data filename.data))

/-- Modelled from the documentation of Node's `path.relative` on POSIX:
both paths are resolved, one `..` climbs out of every segment of the first path
below the common ancestor, then the rest of the second follows. -/
def relative (cwd source target : String) : String :=
  let r := dropCommon (resolveSegs cwd.data [] source.data) (resolveSegs cwd.data [] target.data)
  String.mk (joinSegs (r.1.map (fun _ => ['.', '.']) ++ r.2))

end Posix

/-- Node's POSIX `path` module in a process whose working directory is `cwd`. -/
def posixPath (cwd : String) : PathModule where
  resolve := Posix.resolve cwd
  relative := Posix.relative cwd

/-! ## `compileTemplate`: the synchronous part (lines 35-52) -/

/-- The object `outputOptions` of line 35; `publicPath` is whatever the parent
compilation has there, possibly `undefined`. -/
structure OutputOptions where
  filename : String
  publicPath : Option String
  deriving DecidableEq, Repr

/-- The parent compilation, as far as `compileTemplate` reads it. -/
structure Compilation where
  assets : AssetTable
  publicPath : Option String
  deriving DecidableEq, Repr

/-- The receiver `this` of a call of `compileTemplate`.  The file is in strict
mode, so a plain function call leaves it `undefined`; of an object only the
property `context` is read (`none` when reading it yields `undefined`). -/
inductive Receiver where
  | undefined
  | object (context : Option String)
  deriving DecidableEq, Repr

/-- An exception raised by the JavaScript engine. -/
inductive Thrown where
  | typeError
  deriving DecidableEq, Repr

/-- The plugin objects constructed on lines 47-51, each with the arguments its
constructor received. -/
inductive Plugin where
  | nodeTemplate (outputOptions : OutputOptions)
  | nodeTarget
  | libraryTemplate (name target : String)
  | singleEntry (context : Option String) (entry : String)
  | loaderTarget (target : String)
  deriving DecidableEq, Repr

/-- The child compiler after lines 44-52: the arguments of
`createChildCompiler`, the `context` assigned on line 45 and the plugins applied
on lines 46-52, in order. -/
structure ChildCompiler where
  name : String
  outputOptions : OutputOptions
  context : String
  plugins : List Plugin
  deriving DecidableEq, Repr

/-- What the synchronous part leaves for the completion callback to close over. -/
structure Started where
  outputOptions : OutputOptions
  cachedAsset : Value
  childCompiler : ChildCompiler
  deriving DecidableEq, Repr

/-- Lines 35-52 of `compileTemplate`. -/
def compileTemplate_sync (path : PathModule) (this : Receiver)
    (template context outputFilename : String) (compilation : Compilation) :
    Except Thrown Started :=
  let outputOptions : OutputOptions :=
    { filename := outputFilename, publicPath := compilation.publicPath }
  let cachedAsset := AssetTable.get compilation.assets outputOptions.filename
  let compilerName := getCompilerName path context outputFilename
  match this with
  | Receiver.undefined => Except.error Thrown.typeError
  | Receiver.object thisContext =>
    Except.ok
      { outputOptions := outputOptions
        cachedAsset := cachedAsset
        childCompiler :=
          { name := compilerName
            outputOptions := outputOptions
            context := context
            plugins :=
              [ Plugin.nodeTemplate outputOptions,
                Plugin.nodeTarget,
                Plugin.libraryTemplate "HTML_WEBPACK_PLUGIN_RESULT" "var",
                Plugin.singleEntry thisContext template,
                Plugin.loaderTarget "node" ] } }

/-! ## `compileTemplate`: the completion callback (lines 56-75) -/

/-- The property `error` of a build error: absent (reading it gives
`undefined`), a string, or an object (an `Error`, say) given by the text its
conversion to a string produces. -/
inductive Nested where
  | absent
  | text (s : String)
  | object (rendering : String)
  deriving DecidableEq, Repr

/-- JavaScript truthiness of `error.error`: `undefined` and the empty string
are falsy, every object is truthy. -/
def Nested.truthy : Nested → Bool
  | Nested.absent => false
  | Nested.text s => decide (s ≠ "")
  | Nested.object _ => true

/-- The string that `':\n' + error.error` appends for a truthy value. -/
def Nested.toStr : Nested → String
  | Nested.absent => "undefined"
  | Nested.text s => s
  | Nested.object r => r

/-- An element of `childCompilation.errors`. -/
structure BuildError where
  message : String
  error : Nested
  deriving DecidableEq, Repr

/-- An entry chunk, element of the callback's `entries` argument. -/
structure Chunk where
  hash : String
  deriving DecidableEq, Repr

/-- The nested compilation handed to the callback; `errors` may be `undefined`
(`none`).  It is an object of its own, distinct from the parent compilation. -/
structure ChildCompilation where
  errors : Option (List BuildError)
  assets : AssetTable
  deriving DecidableEq, Repr

/-- The object passed to `resolve` on lines 68-73. -/
structure CompiledResult where
  hash : String
  content : String
  deriving DecidableEq, Repr

/-- The first argument of the completion callback when it is not null. -/
structure HostError where
  id : String
  deriving DecidableEq, Repr

/-- A value a promise can be rejected with: an `Error` made by `new Error(message)`
in the callback, or an error value received from the host engine. -/
inductive Reason where
  | newError (message : String)
  | fromHost (e : HostError)
  deriving DecidableEq, Repr

/-- A call of one of the two functions of the promise executor. -/
inductive Settle where
  | resolve (r : CompiledResult)
  | reject (e : Reason)
  deriving DecidableEq, Repr

/-- The state of a promise. -/
inductive PromiseState where
  | pending
  | fulfilled (r : CompiledResult)
  | rejected (e : Reason)
  deriving DecidableEq, Repr

/-- The state a pending promise is in after a sequence of calls of `resolve`
and `reject`: the first call settles it, later ones are ignored. -/
def promiseAfter : List Settle → PromiseState
  | [] => PromiseState.pending
  | Settle.resolve r :: _ => PromiseState.fulfilled r
  | Settle.reject e :: _ => PromiseState.rejected e

/-- One run of the completion callback: the parent asset table it leaves, the
calls of `resolve` and `reject` it made, in order, and the exception it ended
with, if any. -/
structure CallbackRun where
  assets : AssetTable
  calls : List Settle
  thrown : Option Thrown
  deriving DecidableEq, Repr

/-- The function mapped over `childCompilation.errors` on lines 63-65. -/
def errorText (error : BuildError) : String :=
  error.message ++ (if error.error.truthy then ":\n" ++ error.error.toStr else "")

/-- The completion callback, lines 56-75.  `assets` is the parent asset table
at the moment the host engine invokes the callback. -/
def compileTemplate_callback (outputOptions : OutputOptions) (cachedAsset : Value)
    (assets : AssetTable) (_err : Option HostError) (entries : Option (List Chunk))
    (childCompilation : Option ChildCompilation) : CallbackRun :=
  let assets1 := AssetTable.set assets outputOptions.filename cachedAsset
  let assets2 :=
    if cachedAsset = Value.undefined then AssetTable.delete assets1 outputOptions.filename
    else assets1
  match childCompilation with
  | none => { assets := assets2, calls := [], thrown := some Thrown.typeError }
  | some cc =>
    match cc.errors with
    | some (e :: es) =>
      let errorDetails := "\n".intercalate ((e :: es).map errorText)
      { assets := assets2
        calls := [Settle.reject (Reason.newError ("Child compilation failed:\n" ++ errorDetails))]
        thrown := none }
    | _ =>
      match entries with
      | some (chunk :: _) =>
        match AssetTable.get cc.assets outputOptions.filename with
        | Value.asset a =>
          { assets := assets2
            calls := [Settle.resolve { hash := chunk.hash, content := a.source }]
            thrown := none }
        | Value.undefined => { assets := assets2, calls := [], thrown := some Thrown.typeError }
        | Value.inherited _ => { assets := assets2, calls := [], thrown := some Thrown.typeError }
      | _ => { assets := assets2, calls := [], thrown := some Thrown.typeError }

/-! ## `compileTemplate` as a whole -/

/-- What the host engine does between the call of `runAsChild` and the
completion: the parent asset table it leaves behind and the three arguments it
invokes the callback with. -/
structure HostRun where
  assets : AssetTable
  err : Option HostError
  entries : Option (List Chunk)
  childCompilation : Option ChildCompilation
  deriving DecidableEq, Repr

/-- The end of a call of `compileTemplate` whose callback the host engine has
invoked: the child compiler as configured, the parent asset table, the calls
the callback made, the exception it ended with and the state of the promise. -/
structure Completed where
  childCompiler : ChildCompiler
  assets : AssetTable
  calls : List Settle
  thrown : Option Thrown
  promise : PromiseState
  deriving DecidableEq, Repr

/-- `compileTemplate` (lines 32-77) followed by one invocation of the
completion callback by the host engine. -/
def compileTemplate (path : PathModule) (this : Receiver)
    (template context outputFilename : String) (compilation : Compilation) (host : HostRun) :
    Except Thrown Completed :=
  match compileTemplate_sync path this template context outputFilename compilation with
  | Except.error e => Except.error e
  | Except.ok started =>
    let run := compileTemplate_callback started.outputOptions started.cachedAsset
      host.assets host.err host.entries host.childCompilation
    Except.ok
      { childCompiler := started.childCompiler
        assets := run.assets
        calls := run.calls
        thrown := run.thrown
        promise := promiseAfter run.calls }

/-! ## The specification's wording: error text and conditions on the host's run -/

/-- The text of one reported error as the specification words it, read with
JavaScript's notion of a value being there: the message, followed by `":\n"`
and the nested error when there is one and it is not the empty string, and the
message alone otherwise.  Compared with `errorText`, the function of the source. -/
def describedErrorText (error : BuildError) : String :=
  match error.error with
  | Nested.absent => error.message
  | Nested.text s => if s = "" then error.message else error.message ++ ":\n" ++ s
  | Nested.object r => error.message ++ ":\n" ++ r

/-- The condition under which the completion callback reaches one of its two
calls: the nested compilation is there and either lists an error or comes with
a first entry chunk and an asset under the output filename. -/
def Settles (host : HostRun) (outputFilename : String) : Prop :=
  ∃ cc, host.childCompilation = some cc ∧
    ((∃ l, cc.errors = some l ∧ l ≠ []) ∨
      ((∃ chunk rest, host.entries = some (chunk :: rest)) ∧
        ∃ a, AssetTable.own cc.assets outputFilename = some (Value.asset a)))

/-- The nested build lists at least one error. -/
def ReportsErrors (host : HostRun) : Prop :=
  ∃ cc l, host.childCompilation = some cc ∧ cc.errors = some l ∧ l ≠ []

/-! ## Sample inputs -/

def sampleAsset : Asset := { source := "old" }

def sampleChild : ChildCompilation :=
  { errors := some [], assets := [("index.html", Value.asset { source := "module.exports = 1" })] }

def sampleHost : HostRun :=
  { assets := [("index.html", Value.asset { source := "module.exports = 1" })]
    err := none
    entries := some [{ hash := "h0" }]
    childCompilation := some sampleChild }

def failedChild : ChildCompilation :=
  { errors := some [{ message := "A", error := Nested.absent },
                    { message := "B", error := Nested.text "X" }]
    assets := [("index.html", Value.asset { source := "module.exports = 1" })] }

def failedHost : HostRun :=
  { sampleHost with childCompilation := some failedChild }

/-- A successful nested build of an output file named `constructor`, which the
host engine has copied into the parent table. -/
def constructorHost : HostRun :=
  { assets := [("constructor", Value.asset { source := "module.exports = 1" })]
    err := none
    entries := some [{ hash := "h0" }]
    childCompilation :=
      some { errors := some [], assets := [("constructor", Value.asset { source := "module.exports = 1" })] } }

/-! ## The asset table: reads after writes -/

namespace AssetTable

theorem lookup_store_same (t : AssetTable) (k : String) (v : Value) :
    lookup (store t k v) k = some v := by
  induction t with
  | nil => simp [store, lookup]
  | cons p t ih =>
    obtain ⟨k', v'⟩ := p
    by_cases h : k' = k
    · simp [store, lookup, h]
    · simp [store, lookup, h, ih]

theorem lookup_store_other (t : AssetTable) (k k' : String) (v : Value) (h : k' ≠ k) :
    lookup (store t k v) k' = lookup t k' := by
  have hk : ¬ k = k' := fun e => h e.symm
  induction t with
  | nil => simp [store, lookup, hk]
  | cons p t ih =>
    obtain ⟨k₀, v₀⟩ := p
    by_cases h₀ : k₀ = k
    · subst h₀
      simp [store, lookup, hk]
    · by_cases h₁ : k₀ = k'
      · subst h₁
        simp [store, lookup, h₀]
      · simp [store, lookup, h₀, h₁, ih]

theorem lookup_delete_same (t : AssetTable) (k : String) :
    lookup (delete t k) k = none := by
  induction t with
  | nil => simp [delete, lookup]
  | cons p t ih =>
    obtain ⟨k', v'⟩ := p
    by_cases h : k' = k
    · simp [delete, h, ih]
    · simp [delete, h, lookup, ih]

theorem lookup_delete_other (t : AssetTable) (k k' : String) (h : k' ≠ k) :
    lookup (delete t k) k' = lookup t k' := by
  have hk : ¬ k = k' := fun e => h e.symm
  induction t with
  | nil => simp [delete, lookup]
  | cons p t ih =>
    obtain ⟨k₀, v₀⟩ := p
    by_cases h₀ : k₀ = k
    · subst h₀
      simp [delete, lookup, hk, ih]
    · by_cases h₁ : k₀ = k'
      · subst h₁
        simp [delete, lookup, h₀]
      · simp [delete, lookup, h₀, h₁, ih]

/-- An own property has a name other than `__proto__`. -/
theorem ne_proto_of_own (t : AssetTable) (k : String) (v : Value) (h : own t k = some v) :
    k ≠ "__proto__" := by
  intro hk
  simp [own, hk] at h

theorem own_set_same (t : AssetTable) (k : String) (v : Value) (hk : k ≠ "__proto__") :
    own (set t k v) k = some v := by
  simp [own, set, hk, lookup_store_same]

theorem own_set_other (t : AssetTable) (k k' : String) (v : Value) (h : k' ≠ k) :
    own (set t k v) k' = own t k' := by
  by_cases hk : k = "__proto__"
  · simp [set, hk]
  · by_cases hk' : k' = "__proto__"
    · simp [own, hk']
    · simp [own, set, hk, hk', lookup_store_other _ _ _ _ h]

theorem own_delete_same (t : AssetTable) (k : String) :
    own (delete t k) k = none := by
  by_cases hk : k = "__proto__"
  · simp [own, hk]
  · simp [own, hk, lookup_delete_same]

theorem own_delete_other (t : AssetTable) (k k' : String) (h : k' ≠ k) :
    own (delete t k) k' = own t k' := by
  by_cases hk' : k' = "__proto__"
  · simp [own, hk']
  · simp [own, hk', lookup_delete_other _ _ _ h]

theorem get_of_own_none (t : AssetTable) (k : String) (h : own t k = none)
    (hk : k ∉ objectPrototypeNames) : get t k = Value.undefined := by
  simp [get, h, hk]

theorem get_of_own_some (t : AssetTable) (k : String) (v : Value) (h : own t k = some v) :
    get t k = v := by
  simp [get, h]

end AssetTable

/-! ## The callback's effect on the parent asset table -/

/-- The parent asset table after the callback, whatever the callback's
arguments: lines 57-60 run before anything else. -/
theorem callback_assets (o : OutputOptions) (cached : Value) (assets : AssetTable)
    (err : Option HostError) (entries : Option (List Chunk))
    (child : Option ChildCompilation) :
    (compileTemplate_callback o cached assets err entries child).assets =
      if cached = Value.undefined
      then AssetTable.delete (AssetTable.set assets o.filename cached) o.filename
      else AssetTable.set assets o.filename cached := by
  unfold compileTemplate_callback
  cases child with
  | none => rfl
  | some cc =>
    obtain ⟨errors, cassets⟩ := cc
    cases errors with
    | none =>
      cases entries with
      | none => rfl
      | some l =>
        cases l with
        | nil => rfl
        | cons c cs =>
          dsimp only
          cases AssetTable.get cassets o.filename <;> rfl
    | some l =>
      cases l with
      | cons e es => rfl
      | nil =>
        cases entries with
        | none => rfl
        | some l =>
          cases l with
          | nil => rfl
          | cons c cs =>
            dsimp only
            cases AssetTable.get cassets o.filename <;> rfl

/-- A call on an object receiver reaches the callback; the callback closes
over the output options of line 35 and the snapshot of line 39. -/
theorem compileTemplate_object (path : PathModule) (c : Option String)
    (template context outputFilename : String) (compilation : Compilation) (host : HostRun) :
    ∃ done, compileTemplate path (Receiver.object c) template context outputFilename
        compilation host = Except.ok done ∧
      done.assets = (compileTemplate_callback
        { filename := outputFilename, publicPath := compilation.publicPath }
        (AssetTable.get compilation.assets outputFilename)
        host.assets host.err host.entries host.childCompilation).assets ∧
      done.calls = (compileTemplate_callback
        { filename := outputFilename, publicPath := compilation.publicPath }
        (AssetTable.get compilation.assets outputFilename)
        host.assets host.err host.entries host.childCompilation).calls ∧
      done.thrown = (compileTemplate_callback
        { filename := outputFilename, publicPath := compilation.publicPath }
        (AssetTable.get compilation.assets outputFilename)
        host.assets host.err host.entries host.childCompilation).thrown ∧
      done.promise = promiseAfter done.calls :=
  ⟨_, rfl, rfl, rfl, rfl, rfl⟩

/-! ## Restoration of the parent asset table -/

/-- Whenever line 39 reads `undefined` (the key is absent, or it is present
and holds `undefined`), the key is absent after the callback. -/
theorem callback_removes_key (o : OutputOptions) (assets : AssetTable)
    (err : Option HostError) (entries : Option (List Chunk))
    (child : Option ChildCompilation) :
    AssetTable.own (compileTemplate_callback o Value.undefined assets err entries child).assets
      o.filename = none := by
  rw [callback_assets]
  simp [AssetTable.own_delete_same]

/-- A key that holds the value `undefined` at the call is not kept as a key:
for line 58 it is the same as an absent one. -/
theorem compileTemplate_removes_undefined_entry :
    AssetTable.own [("index.html", Value.undefined)] "index.html" = some Value.undefined ∧
    ∃ done, compileTemplate (posixPath "/w") (Receiver.object none) "tpl.html" "/a/b"
        "index.html" { assets := [("index.html", Value.undefined)], publicPath := none }
        sampleHost = Except.ok done ∧
      AssetTable.own done.assets "index.html" = none :=
  ⟨by decide, _, rfl, by decide⟩

/-- C1: when the parent asset table holds an entry, the asset object `a`,
under `outputFilename` at the call of `compileTemplate`, then whatever the host
engine left in the table and whatever it passes to the completion callback
(errors or none), the table holds exactly `a` under `outputFilename` once the
callback has run. -/
theorem compileTemplate_restores_present (path : PathModule) (c : Option String)
    (template context outputFilename : String) (compilation : Compilation) (host : HostRun)
    (a : Asset)
    (h : AssetTable.own compilation.assets outputFilename = some (Value.asset a)) :
    ∃ done, compileTemplate path (Receiver.object c) template context outputFilename
        compilation host = Except.ok done ∧
      AssetTable.own done.assets outputFilename = some (Value.asset a) := by
  obtain ⟨done, hrun, hassets, -⟩ :=
    compileTemplate_object path c template context outputFilename compilation host
  refine ⟨done, hrun, ?_⟩
  rw [hassets, callback_assets, AssetTable.get_of_own_some _ _ _ h]
  simp [AssetTable.own_set_same _ _ _ (AssetTable.ne_proto_of_own _ _ _ h)]

/-- Witness of C1: an entry `old` under `index.html` survives a
successful nested build that stored its own output under that key. -/
theorem compileTemplate_restores_present_witness :
    ∃ done, compileTemplate (posixPath "/w") (Receiver.object none) "tpl.html" "/a/b"
        "index.html" { assets := [("index.html", Value.asset sampleAsset)], publicPath := none }
        sampleHost = Except.ok done ∧
      AssetTable.own done.assets "index.html" = some (Value.asset sampleAsset) :=
  compileTemplate_restores_present (posixPath "/w") none "tpl.html" "/a/b" "index.html"
    { assets := [("index.html", Value.asset sampleAsset)], publicPath := none } sampleHost
    sampleAsset (by decide)

/-- The restoration of an absent key, for the names under which the table
inherits nothing: when the parent asset table has no entry under
`outputFilename` at the call and `outputFilename` is not a property name of
`Object.prototype`, the key is absent once the completion callback has run,
whatever the host engine stored in between and whatever the outcome of the
nested build. -/
theorem compileTemplate_restores_absent (path : PathModule) (c : Option String)
    (template context outputFilename : String) (compilation : Compilation) (host : HostRun)
    (h : AssetTable.own compilation.assets outputFilename = none)
    (hk : outputFilename ∉ objectPrototypeNames) :
    ∃ done, compileTemplate path (Receiver.object c) template context outputFilename
        compilation host = Except.ok done ∧
      AssetTable.own done.assets outputFilename = none := by
  obtain ⟨done, hrun, hassets, -⟩ :=
    compileTemplate_object path c template context outputFilename compilation host
  refine ⟨done, hrun, ?_⟩
  rw [hassets, AssetTable.get_of_own_none _ _ h hk]
  exact callback_removes_key ⟨outputFilename, compilation.publicPath⟩ _ _ _ _

/-- The parent table is empty, the nested build fails after the host engine
stored its output under `index.html`; the key is absent afterwards. -/
theorem compileTemplate_restores_absent_witness :
    ∃ done, compileTemplate (posixPath "/w") (Receiver.object none) "tpl.html" "/a/b"
        "index.html" { assets := [], publicPath := none } failedHost = Except.ok done ∧
      AssetTable.own done.assets "index.html" = none :=
  compileTemplate_restores_absent (posixPath "/w") none "tpl.html" "/a/b" "index.html"
    { assets := [], publicPath := none } failedHost (by decide) (by decide)

/-- C2, the code at the failing input: the parent asset table is empty and the
output file is named `constructor`.  Line 39 reads the function the table
inherits from `Object.prototype`, not `undefined`; line 57 stores it as an own
property and line 58 does not delete it.  The key, absent at the call, is
present once the callback has run, whether the nested build succeeded or
failed. -/
theorem compileTemplate_keeps_inherited_constructor :
    AssetTable.own [] "constructor" = none ∧
    AssetTable.get [] "constructor" = Value.inherited "constructor" ∧
    (∃ done, compileTemplate (posixPath "/w") (Receiver.object none) "tpl.html" "/a/b"
        "constructor" { assets := [], publicPath := none }
        constructorHost = Except.ok done ∧
      AssetTable.own done.assets "constructor" = some (Value.inherited "constructor")) ∧
    (∃ done, compileTemplate (posixPath "/w") (Receiver.object none) "tpl.html" "/a/b"
        "constructor" { assets := [], publicPath := none }
        { constructorHost with childCompilation := some failedChild } = Except.ok done ∧
      AssetTable.own done.assets "constructor" = some (Value.inherited "constructor")) :=
  ⟨by decide, by decide, ⟨_, rfl, by decide⟩, ⟨_, rfl, by decide⟩⟩

/-- For every name of `Object.prototype` other than `__proto__`, an absent key
is present after the callback, holding the inherited value. -/
theorem callback_keeps_inherited (o : OutputOptions) (assets : AssetTable)
    (err : Option HostError) (entries : Option (List Chunk))
    (child : Option ChildCompilation) (hk : o.filename ≠ "__proto__") :
    AssetTable.own
      (compileTemplate_callback o (Value.inherited o.filename) assets err entries child).assets
      o.filename = some (Value.inherited o.filename) := by
  rw [callback_assets]
  simp [AssetTable.own_set_same _ _ _ hk]

/-- C10: the completion callback leaves every key other than `outputFilename`
as the host engine left it: present after the callback exactly when it was
present before, with the same value. -/
theorem compileTemplate_callback_frame (path : PathModule) (c : Option String)
    (template context outputFilename : String) (compilation : Compilation) (host : HostRun)
    (k : String) (hk : k ≠ outputFilename) :
    ∃ done, compileTemplate path (Receiver.object c) template context outputFilename
        compilation host = Except.ok done ∧
      AssetTable.own done.assets k = AssetTable.own host.assets k := by
  obtain ⟨done, hrun, hassets, -⟩ :=
    compileTemplate_object path c template context outputFilename compilation host
  refine ⟨done, hrun, ?_⟩
  rw [hassets, callback_assets]
  split
  · rw [AssetTable.own_delete_other _ _ _ hk, AssetTable.own_set_other _ _ _ _ hk]
  · rw [AssetTable.own_set_other _ _ _ _ hk]

/-- Witness of C10: the key `main.js` keeps its value across a callback for
`index.html`. -/
theorem compileTemplate_callback_frame_witness :
    ∃ done, compileTemplate (posixPath "/w") (Receiver.object none) "tpl.html" "/a/b"
        "index.html" { assets := [], publicPath := none }
        { sampleHost with assets := [("main.js", Value.asset sampleAsset),
                                     ("index.html", Value.asset sampleAsset)] } = Except.ok done ∧
      AssetTable.own done.assets "main.js" =
        AssetTable.own [("main.js", Value.asset sampleAsset),
                        ("index.html", Value.asset sampleAsset)] "main.js" :=
  compileTemplate_callback_frame (posixPath "/w") none "tpl.html" "/a/b" "index.html"
    { assets := [], publicPath := none }
    { sampleHost with assets := [("main.js", Value.asset sampleAsset),
                                 ("index.html", Value.asset sampleAsset)] }
    "main.js" (by decide)

/-! ## Settling the promise -/

theorem errorText_eq_described (error : BuildError) :
    errorText error = describedErrorText error := by
  obtain ⟨m, n⟩ := error
  cases n with
  | absent => simp [errorText, describedErrorText, Nested.truthy]
  | text s =>
    by_cases hs : s = ""
    · simp [errorText, describedErrorText, Nested.truthy, hs]
    · simp [errorText, describedErrorText, Nested.truthy, Nested.toStr, hs, String.append_assoc]
  | object r =>
    simp [errorText, describedErrorText, Nested.truthy, Nested.toStr, String.append_assoc]

/-- The callback on a nested compilation that lists errors. -/
theorem callback_errors (o : OutputOptions) (cached : Value) (assets : AssetTable)
    (err : Option HostError) (entries : Option (List Chunk)) (cc : ChildCompilation)
    (l : List BuildError) (he : cc.errors = some l) (hl : l ≠ []) :
    (compileTemplate_callback o cached assets err entries (some cc)).calls =
        [Settle.reject (Reason.newError
          ("Child compilation failed:\n" ++ "\n".intercalate (l.map errorText)))] ∧
      (compileTemplate_callback o cached assets err entries (some cc)).thrown = none := by
  obtain ⟨errors, cassets⟩ := cc
  cases l with
  | nil => exact absurd rfl hl
  | cons e es =>
    simp only at he
    subst he
    exact ⟨rfl, rfl⟩

/-- The callback on a nested compilation that lists no error. -/
theorem callback_no_errors (o : OutputOptions) (cached : Value) (assets : AssetTable)
    (err : Option HostError) (entries : Option (List Chunk)) (cc : ChildCompilation)
    (he : cc.errors = none ∨ cc.errors = some []) :
    compileTemplate_callback o cached assets err entries (some cc) =
      match entries with
      | some (chunk :: _) =>
        match AssetTable.get cc.assets o.filename with
        | Value.asset a =>
          { assets := (compileTemplate_callback o cached assets err entries (some cc)).assets
            calls := [Settle.resolve { hash := chunk.hash, content := a.source }]
            thrown := none }
        | Value.undefined =>
          { assets := (compileTemplate_callback o cached assets err entries (some cc)).assets
            calls := [], thrown := some Thrown.typeError }
        | Value.inherited _ =>
          { assets := (compileTemplate_callback o cached assets err entries (some cc)).assets
            calls := [], thrown := some Thrown.typeError }
      | _ =>
        { assets := (compileTemplate_callback o cached assets err entries (some cc)).assets
          calls := [], thrown := some Thrown.typeError } := by
  obtain ⟨errors, cassets⟩ := cc
  simp only at he
  rcases he with he | he <;> subst he
  all_goals
    cases entries with
    | none => rfl
    | some l =>
      cases l with
      | nil => rfl
      | cons c cs =>
        simp only [compileTemplate_callback]
        cases AssetTable.get cassets o.filename <;> rfl

/-- The calls of `resolve` and `reject` that the callback makes, by cases on
what the host engine passed: a rejection when errors are listed, a resolution
when none is listed and the first chunk and the asset are there, and no call
at all (the callback throws) otherwise. -/
theorem callback_calls_cases (o : OutputOptions) (cached : Value) (assets : AssetTable)
    (err : Option HostError) (entries : Option (List Chunk))
    (child : Option ChildCompilation) :
    (ReportsErrors ⟨assets, err, entries, child⟩ ∧
        ∃ m, (compileTemplate_callback o cached assets err entries child).calls =
          [Settle.reject (Reason.newError m)]) ∨
      (¬ ReportsErrors ⟨assets, err, entries, child⟩ ∧
        Settles ⟨assets, err, entries, child⟩ o.filename ∧
        ∃ r, (compileTemplate_callback o cached assets err entries child).calls =
          [Settle.resolve r]) ∨
      (¬ ReportsErrors ⟨assets, err, entries, child⟩ ∧
        ¬ Settles ⟨assets, err, entries, child⟩ o.filename ∧
        (compileTemplate_callback o cached assets err entries child).calls = [] ∧
        (compileTemplate_callback o cached assets err entries child).thrown =
          some Thrown.typeError) := by
  cases child with
  | none =>
    right; right
    simp [ReportsErrors, Settles, compileTemplate_callback]
  | some cc =>
    by_cases hr : ∃ l, cc.errors = some l ∧ l ≠ []
    · left
      obtain ⟨l, he, hl⟩ := hr
      exact ⟨⟨cc, l, rfl, he, hl⟩, _, (callback_errors o cached assets err entries cc l he hl).1⟩
    · have hnot : ¬ ReportsErrors ⟨assets, err, entries, some cc⟩ := by
        rintro ⟨cc', l, hcc, he, hl⟩
        simp only [Option.some.injEq] at hcc
        subst hcc
        exact hr ⟨l, he, hl⟩
      have he : cc.errors = none ∨ cc.errors = some [] := by
        cases hE : cc.errors with
        | none => exact Or.inl rfl
        | some l =>
          cases l with
          | nil => exact Or.inr rfl
          | cons e es => exact absurd ⟨e :: es, hE, by simp⟩ hr
      right
      rw [callback_no_errors o cached assets err entries cc he]
      cases entries with
      | none =>
        right
        refine ⟨hnot, ?_, rfl, rfl⟩
        rintro ⟨cc', hcc, h | ⟨⟨_, _, h⟩, _⟩⟩
        · simp only [Option.some.injEq] at hcc
          subst hcc
          exact hr h
        · simp at h
      | some l =>
        cases l with
        | nil =>
          right
          refine ⟨hnot, ?_, rfl, rfl⟩
          rintro ⟨cc', hcc, h | ⟨⟨_, _, h⟩, _⟩⟩
          · simp only [Option.some.injEq] at hcc
            subst hcc
            exact hr h
          · simp at h
        | cons c cs =>
          cases hO : AssetTable.own cc.assets o.filename with
          | none =>
            right
            refine ⟨hnot, ?_, ?_, ?_⟩
            · rintro ⟨cc', hcc, h | ⟨_, a, h⟩⟩
              · simp only [Option.some.injEq] at hcc
                subst hcc
                exact hr h
              · simp only [Option.some.injEq] at hcc
                subst hcc
                simp [hO] at h
            · by_cases hp : o.filename ∈ objectPrototypeNames <;> simp [AssetTable.get, hO, hp]
            · by_cases hp : o.filename ∈ objectPrototypeNames <;> simp [AssetTable.get, hO, hp]
          | some v =>
            cases v with
            | undefined =>
              right
              refine ⟨hnot, ?_, ?_, ?_⟩
              · rintro ⟨cc', hcc, h | ⟨_, a, h⟩⟩
                · simp only [Option.some.injEq] at hcc
                  subst hcc
                  exact hr h
                · simp only [Option.some.injEq] at hcc
                  subst hcc
                  simp [hO] at h
              · simp [AssetTable.get, hO]
              · simp [AssetTable.get, hO]
            | inherited n =>
              right
              refine ⟨hnot, ?_, ?_, ?_⟩
              · rintro ⟨cc', hcc, h | ⟨_, a, h⟩⟩
                · simp only [Option.some.injEq] at hcc
                  subst hcc
                  exact hr h
                · simp only [Option.some.injEq] at hcc
                  subst hcc
                  simp [hO] at h
              · simp [AssetTable.get, hO]
              · simp [AssetTable.get, hO]
            | asset a =>
              left
              refine ⟨hnot, ⟨cc, rfl, Or.inr ⟨⟨c, cs, rfl⟩, a, hO⟩⟩, ?_⟩
              simp [AssetTable.get, hO]

/-- C3 (amended): for every non-empty list of errors reported by the nested
build, `compileTemplate` rejects with an `Error` whose message is
`"Child compilation failed:\n"` followed by the per-error texts joined by
`"\n"`, where the text of an error is its message, followed by `":\n"` and its
nested error when that nested error is present and truthy (not the empty
string), and the message alone otherwise; for the errors
`[{message:"A"}, {message:"B", error:"X"}]` the message is
`"Child compilation failed:\nA\nB:\nX"`. -/
theorem compileTemplate_rejects_with_error_details :
    (∀ (path : PathModule) (c : Option String) (template context outputFilename : String)
        (compilation : Compilation) (host : HostRun) (cc : ChildCompilation)
        (l : List BuildError),
        host.childCompilation = some cc → cc.errors = some l → l ≠ [] →
        ∃ done, compileTemplate path (Receiver.object c) template context outputFilename
            compilation host = Except.ok done ∧
          done.calls = [Settle.reject (Reason.newError
            ("Child compilation failed:\n" ++ "\n".intercalate (l.map describedErrorText)))] ∧
          done.promise = PromiseState.rejected (Reason.newError
            ("Child compilation failed:\n" ++ "\n".intercalate (l.map describedErrorText)))) ∧
      (∃ done, compileTemplate (posixPath "/w") (Receiver.object none) "tpl.html" "/a/b"
          "index.html" { assets := [], publicPath := none } failedHost = Except.ok done ∧
        done.promise =
          PromiseState.rejected (Reason.newError "Child compilation failed:\nA\nB:\nX")) := by
  refine ⟨?_, _, rfl, by decide⟩
  intro path c template context outputFilename compilation host cc l hc he hl
  obtain ⟨done, hrun, -, hcalls, -, hpromise⟩ :=
    compileTemplate_object path c template context outputFilename compilation host
  have hmap : l.map errorText = l.map describedErrorText :=
    List.map_congr_left (fun e _ => errorText_eq_described e)
  have hc' : done.calls = [Settle.reject (Reason.newError
      ("Child compilation failed:\n" ++ "\n".intercalate (l.map describedErrorText)))] := by
    rw [hcalls, hc, ← hmap]
    exact (callback_errors _ _ _ _ _ cc l he hl).1
  exact ⟨done, hrun, hc', by rw [hpromise, hc']; rfl⟩

/-- Witness of C3 (amended): a nested build that reports the single error
`{message:"B", error:"X"}`. -/
theorem compileTemplate_rejects_with_error_details_witness :
    ∃ done, compileTemplate (posixPath "/w") (Receiver.object none) "tpl.html" "/a/b"
        "index.html" { assets := [], publicPath := none }
        { sampleHost with
          childCompilation :=
            some { errors := some [{ message := "B", error := Nested.text "X" }], assets := [] } }
        = Except.ok done ∧
      done.calls = [Settle.reject (Reason.newError
        ("Child compilation failed:\n" ++ "\n".intercalate
          ([{ message := "B", error := Nested.text "X" }].map describedErrorText)))] ∧
      done.promise = PromiseState.rejected (Reason.newError
        ("Child compilation failed:\n" ++ "\n".intercalate
          ([{ message := "B", error := Nested.text "X" }].map describedErrorText))) :=
  compileTemplate_rejects_with_error_details.1 (posixPath "/w") none "tpl.html" "/a/b"
    "index.html" { assets := [], publicPath := none } _
    { errors := some [{ message := "B", error := Nested.text "X" }], assets := [] }
    [{ message := "B", error := Nested.text "X" }] rfl rfl (by decide)

/-- Counterexample to C3 as stated: the error `{message:"B", error:""}` has a
nested error, present and equal to the empty string; the claim's text for it is
`"B" + ":\n" + ""`, the rejection message carries `"B"` alone. -/
theorem compileTemplate_empty_nested_error_dropped :
    (∃ done, compileTemplate (posixPath "/w") (Receiver.object none) "tpl.html" "/a/b"
        "index.html" { assets := [], publicPath := none }
        { sampleHost with
          childCompilation :=
            some { errors := some [{ message := "B", error := Nested.text "" }], assets := [] } }
        = Except.ok done ∧
      done.promise = PromiseState.rejected (Reason.newError "Child compilation failed:\nB")) ∧
    "Child compilation failed:\nB" ≠ "Child compilation failed:\n" ++ ("B" ++ ":\n" ++ "") :=
  ⟨⟨_, rfl, by decide⟩, by decide⟩

/-- C4: once the completion callback has run, the promise returned by
`compileTemplate` is rejected (and `reject` has been called) if and only if the
nested build's error list is non-empty; and when it is non-empty, `resolve` is
not called, so no result object reaches the caller, whatever entry points and
assets the nested build produced. -/
theorem compileTemplate_rejected_iff_errors (path : PathModule) (c : Option String)
    (template context outputFilename : String) (compilation : Compilation) (host : HostRun) :
    ∃ done, compileTemplate path (Receiver.object c) template context outputFilename
        compilation host = Except.ok done ∧
      ((∃ e, done.promise = PromiseState.rejected e) ↔ ReportsErrors host) ∧
      ((∃ e, Settle.reject e ∈ done.calls) ↔ ReportsErrors host) ∧
      (ReportsErrors host →
        ∀ r, Settle.resolve r ∉ done.calls ∧ done.promise ≠ PromiseState.fulfilled r) := by
  obtain ⟨done, hrun, -, hcalls, -, hpromise⟩ :=
    compileTemplate_object path c template context outputFilename compilation host
  refine ⟨done, hrun, ?_⟩
  obtain ⟨assets, err, entries, child⟩ := host
  rw [hpromise, hcalls]
  rcases callback_calls_cases ⟨outputFilename, compilation.publicPath⟩
      (AssetTable.get compilation.assets outputFilename) assets err entries child with
    ⟨hr, m, hm⟩ | ⟨hr, -, r, hm⟩ | ⟨hr, -, hm, -⟩
  · simp [hm, hr, promiseAfter]
  · simp [hm, hr, promiseAfter]
  · simp [hm, hr, promiseAfter]

/-- C5: when the nested build completes with zero errors, `compileTemplate`
resolves with an object whose `hash` is the hash of the first entry chunk of
the nested build and whose `content` is the source text of the asset the nested
build holds under `outputFilename`. -/
theorem compileTemplate_resolves_with_hash_and_content (path : PathModule)
    (c : Option String) (template context outputFilename : String)
    (compilation : Compilation) (host : HostRun) (cc : ChildCompilation)
    (chunk : Chunk) (rest : List Chunk) (a : Asset)
    (hc : host.childCompilation = some cc)
    (he : cc.errors = none ∨ cc.errors = some [])
    (hentries : host.entries = some (chunk :: rest))
    (hasset : AssetTable.own cc.assets outputFilename = some (Value.asset a)) :
    ∃ done, compileTemplate path (Receiver.object c) template context outputFilename
        compilation host = Except.ok done ∧
      done.calls = [Settle.resolve { hash := chunk.hash, content := a.source }] ∧
      done.promise = PromiseState.fulfilled { hash := chunk.hash, content := a.source } ∧
      done.thrown = none := by
  obtain ⟨done, hrun, -, hcalls, hthrown, hpromise⟩ :=
    compileTemplate_object path c template context outputFilename compilation host
  have hcb := callback_no_errors ⟨outputFilename, compilation.publicPath⟩
    (AssetTable.get compilation.assets outputFilename) host.assets host.err host.entries cc he
  rw [hc] at hcalls hthrown
  rw [hcb] at hcalls hthrown
  simp only [hentries, AssetTable.get_of_own_some _ _ _ hasset] at hcalls hthrown
  exact ⟨done, hrun, hcalls, by rw [hpromise, hcalls]; rfl, hthrown⟩

/-- Witness of C5: the nested build of the sample host has no error, the entry
chunk `h0` and the asset `module.exports = 1`. -/
theorem compileTemplate_resolves_with_hash_and_content_witness :
    ∃ done, compileTemplate (posixPath "/w") (Receiver.object none) "tpl.html" "/a/b"
        "index.html" { assets := [], publicPath := none } sampleHost = Except.ok done ∧
      done.calls = [Settle.resolve { hash := "h0", content := "module.exports = 1" }] ∧
      done.promise = PromiseState.fulfilled { hash := "h0", content := "module.exports = 1" } ∧
      done.thrown = none :=
  compileTemplate_resolves_with_hash_and_content (posixPath "/w") none "tpl.html" "/a/b"
    "index.html" { assets := [], publicPath := none } sampleHost sampleChild
    { hash := "h0" } [] { source := "module.exports = 1" } rfl (Or.inr rfl) rfl (by decide)

/-- The number of calls the callback makes: never more than one, and one
exactly when `Settles` holds. -/
theorem compileTemplate_calls_count (path : PathModule) (c : Option String)
    (template context outputFilename : String) (compilation : Compilation) (host : HostRun) :
    ∃ done, compileTemplate path (Receiver.object c) template context outputFilename
        compilation host = Except.ok done ∧
      done.calls.length ≤ 1 ∧
      (done.calls.length = 1 ↔ Settles host outputFilename) ∧
      (done.promise ≠ PromiseState.pending ↔ Settles host outputFilename) := by
  obtain ⟨done, hrun, -, hcalls, -, hpromise⟩ :=
    compileTemplate_object path c template context outputFilename compilation host
  refine ⟨done, hrun, ?_⟩
  obtain ⟨assets, err, entries, child⟩ := host
  rw [hpromise, hcalls]
  rcases callback_calls_cases ⟨outputFilename, compilation.publicPath⟩
      (AssetTable.get compilation.assets outputFilename) assets err entries child with
    ⟨hr, m, hm⟩ | ⟨-, hs, r, hm⟩ | ⟨-, hs, hm, -⟩
  · have hs : Settles ⟨assets, err, entries, child⟩ outputFilename := by
      obtain ⟨cc, l, hc, he, hl⟩ := hr
      exact ⟨cc, hc, Or.inl ⟨l, he, hl⟩⟩
    simp [hm, hs, promiseAfter]
  · simp only at hs
    simp [hm, hs, promiseAfter]
  · simp only at hs
    simp [hm, hs, promiseAfter]

/-- C6 (amended): for every invocation of the completion callback, `resolve`
and `reject` are called at most once in total, so the promise never both
resolves and rejects and never settles twice; and when the nested compilation
lists at least one error, or comes with a first entry chunk and an asset under
`outputFilename`, exactly one of the two is called, exactly once, and the
promise is settled once the callback has run. -/
theorem compileTemplate_settles_once (path : PathModule) (c : Option String)
    (template context outputFilename : String) (compilation : Compilation) (host : HostRun) :
    ∃ done, compileTemplate path (Receiver.object c) template context outputFilename
        compilation host = Except.ok done ∧
      done.calls.length ≤ 1 ∧
      (Settles host outputFilename →
        done.calls.length = 1 ∧ done.promise ≠ PromiseState.pending) := by
  obtain ⟨done, hrun, hle, hone, hpending⟩ :=
    compileTemplate_calls_count path c template context outputFilename compilation host
  exact ⟨done, hrun, hle, fun hs => ⟨hone.mpr hs, hpending.mpr hs⟩⟩

/-- Witness of C6 (amended): the sample host's callback makes one call, and
the promise is settled. -/
theorem compileTemplate_settles_once_witness :
    Settles sampleHost "index.html" ∧
    ∃ done, compileTemplate (posixPath "/w") (Receiver.object none) "tpl.html" "/a/b"
        "index.html" { assets := [], publicPath := none } sampleHost = Except.ok done ∧
      done.calls.length ≤ 1 ∧
      (Settles sampleHost "index.html" →
        done.calls.length = 1 ∧ done.promise ≠ PromiseState.pending) :=
  ⟨⟨sampleChild, rfl, Or.inr ⟨⟨_, _, rfl⟩, { source := "module.exports = 1" }, rfl⟩⟩,
    compileTemplate_settles_once (posixPath "/w") none "tpl.html" "/a/b" "index.html"
      { assets := [], publicPath := none } sampleHost⟩

/-- Counterexample to C6 as stated: the host engine invokes the callback with
an empty list of entry points and a nested compilation without errors; reading
`entries[0].hash` throws, neither `resolve` nor `reject` is called and the
promise stays pending. -/
theorem compileTemplate_unsettled_on_empty_entries :
    ∃ done, compileTemplate (posixPath "/w") (Receiver.object none) "tpl.html" "/a/b"
        "index.html" { assets := [], publicPath := none }
        { sampleHost with entries := some [] } = Except.ok done ∧
      done.calls = [] ∧ done.thrown = some Thrown.typeError ∧
      done.promise = PromiseState.pending :=
  ⟨_, rfl, by decide, by decide, by decide⟩

/-- C9, the code at the failing input: the host engine invokes the callback
with an error and nothing else (`callback(err)`); the callback never reads
`err`, throws on `childCompilation.errors`, calls neither `resolve` nor
`reject`, and the promise is not rejected with `err`.  Given `err` together
with a clean nested compilation, the promise is even fulfilled. -/
theorem compileTemplate_ignores_host_error :
    (∃ done, compileTemplate (posixPath "/w") (Receiver.object none) "tpl.html" "/a/b"
        "index.html" { assets := [], publicPath := none }
        { assets := [], err := some { id := "EBUILD" }, entries := none,
          childCompilation := none } = Except.ok done ∧
      done.calls = [] ∧ done.thrown = some Thrown.typeError ∧
      done.promise = PromiseState.pending ∧
      done.promise ≠ PromiseState.rejected (Reason.fromHost { id := "EBUILD" })) ∧
    (∃ done, compileTemplate (posixPath "/w") (Receiver.object none) "tpl.html" "/a/b"
        "index.html" { assets := [], publicPath := none }
        { sampleHost with err := some { id := "EBUILD" } } = Except.ok done ∧
      done.promise = PromiseState.fulfilled { hash := "h0", content := "module.exports = 1" }) :=
  ⟨⟨_, rfl, by decide, by decide, by decide, by decide⟩, ⟨_, rfl, by decide⟩⟩

/-- The error argument has no influence on the callback. -/
theorem callback_err_irrelevant (o : OutputOptions) (cached : Value) (assets : AssetTable)
    (err err' : Option HostError) (entries : Option (List Chunk))
    (child : Option ChildCompilation) :
    compileTemplate_callback o cached assets err entries child =
      compileTemplate_callback o cached assets err' entries child :=
  rfl

/-! ## The compiler name and the child compiler's configuration -/

/-- C7: with `A` the path `outputFilename` resolves to under `contextDir` and
`R` the path of `A` relative to `contextDir`, `getCompilerName` returns
`html-webpack-plugin for "P"` where `P` is `A` when `A` has fewer characters
than `R` (as JavaScript counts them, `length`), and `R` when `R` has fewer or
as many; for `contextDir` `/a/b` and `outputFilename` `c.js` on POSIX it returns
`html-webpack-plugin for "c.js"`. -/
theorem getCompilerName_uses_shorter_path :
    (∀ (path : PathModule) (context filename : String),
        (jsLength (path.resolve context filename) <
            jsLength (path.relative context (path.resolve context filename)) →
          getCompilerName path context filename =
            "html-webpack-plugin for \"" ++ path.resolve context filename ++ "\"") ∧
        (jsLength (path.relative context (path.resolve context filename)) ≤
            jsLength (path.resolve context filename) →
          getCompilerName path context filename =
            "html-webpack-plugin for \"" ++
              path.relative context (path.resolve context filename) ++ "\"")) ∧
      (∀ cwd : String,
        (posixPath cwd).resolve "/a/b" "c.js" = "/a/b/c.js" ∧
        (posixPath cwd).relative "/a/b" "/a/b/c.js" = "c.js" ∧
        getCompilerName (posixPath cwd) "/a/b" "c.js" = "html-webpack-plugin for \"c.js\"") := by
  refine ⟨fun path context filename => ⟨fun h => ?_, fun h => ?_⟩, fun cwd => ?_⟩
  · simp [getCompilerName, h]
  · simp [getCompilerName, Nat.not_lt.mpr h]
  · exact ⟨rfl, rfl, rfl⟩

/-- Witness of C7: `../../x` under `/a/b` resolves to `/x`, which is shorter
than the relative path `../../x`, and is the one named. -/
theorem getCompilerName_uses_shorter_path_witness :
    getCompilerName (posixPath "/w") "/a/b" "../../x" = "html-webpack-plugin for \"/x\"" :=
  (getCompilerName_uses_shorter_path.1 (posixPath "/w") "/a/b" "../../x").1 (by decide)

/-- C8, the code at the failing input: `compileTemplate` is called as a method
of the module's exports, an object without a `context` property, with the
context directory `/a/b`.  The child compiler's `context` is `/a/b`, but the
entry-point plugin is constructed with `this.context`, which is `undefined`,
not with `/a/b`. -/
theorem compileTemplate_entry_context_is_receiver_context :
    ∃ started, compileTemplate_sync (posixPath "/w") (Receiver.object none) "tpl.html" "/a/b"
        "index.html" { assets := [], publicPath := none } = Except.ok started ∧
      started.childCompiler.context = "/a/b" ∧
      Plugin.singleEntry none "tpl.html" ∈ started.childCompiler.plugins ∧
      Plugin.singleEntry (some "/a/b") "tpl.html" ∉ started.childCompiler.plugins :=
  ⟨_, rfl, by decide, by decide, by decide⟩

/-- The entry-point plugin receives the receiver's `context` property and the
template path, whatever the `context` argument is. -/
theorem compileTemplate_sync_plugins (path : PathModule) (c : Option String)
    (template context outputFilename : String) (compilation : Compilation) :
    ∃ started, compileTemplate_sync path (Receiver.object c) template context outputFilename
        compilation = Except.ok started ∧
      started.childCompiler.context = context ∧
      started.childCompiler.plugins =
        [ Plugin.nodeTemplate { filename := outputFilename, publicPath := compilation.publicPath },
          Plugin.nodeTarget,
          Plugin.libraryTemplate "HTML_WEBPACK_PLUGIN_RESULT" "var",
          Plugin.singleEntry c template,
          Plugin.loaderTarget "node" ] :=
  ⟨_, rfl, rfl, rfl⟩

/-- In strict mode a call without a receiver throws on `this.context`. -/
theorem compileTemplate_sync_no_receiver (path : PathModule)
    (template context outputFilename : String) (compilation : Compilation) :
    compileTemplate_sync path Receiver.undefined template context outputFilename compilation =
      Except.error Thrown.typeError :=
  rfl

/-! ## The POSIX model on sample paths -/

theorem posix_resolve_parent : (posixPath "/w").resolve "/a/b" "../../x" = "/x" := by decide

theorem posix_relative_parent : (posixPath "/w").relative "/a/b" "/x" = "../../x" := by decide

theorem posix_resolve_relative_context :
    (posixPath "/w").resolve "a" "./c/../d.js" = "/w/a/d.js" := by decide

end HtmlWebpackPlugin
